import Mathlib

/-! Shallow embedding of the cluster-cloud-controller-manager-operator status
reconciliation engine (`src/pkg/controllers/status.go`) and of the PEM
trust-bundle utility (`CertificateData`).  Machine times are modelled as
natural-number clock readings; the external store is modelled by explicit
fetch/create/update results passed into the functions that call it.  The
library-go merge helpers (`v1helpers.SetStatusCondition` and friends), whose
source is not part of this repository, are modelled from the specification. -/

/-- Condition of a ClusterOperator status record
(`configv1.ClusterOperatorStatusCondition`): condition type, status
("True"/"False"/"Unknown"), last transition time (a clock reading),
reason and message. -/
structure StatusCondition where
  type : String
  status : String
  lastTransitionTime : Nat
  reason : String
  message : String
deriving DecidableEq

/-- Operand version entry (`configv1.OperandVersion`): name and version. -/
structure OperandVersion where
  name : String
  version : String
deriving DecidableEq

/-- Related-object reference (`configv1.ObjectReference`): group, resource,
name. -/
structure ObjectReference where
  group : String
  resource : String
  name : String
deriving DecidableEq

/-- The parts of a ClusterOperator the status engine reads and writes
(`configv1.ClusterOperatorStatus`): conditions, versions, related objects. -/
structure ClusterOperatorStatus where
  conditions : List StatusCondition
  versions : List OperandVersion
  relatedObjects : List ObjectReference
deriving DecidableEq

/-- Configuration of the status client (`ClusterOperatorStatusClient`):
the managed namespace and the operator release version. -/
structure ClusterOperatorStatusClient where
  managedNamespace : String
  releaseVersion : String
deriving DecidableEq

/-- Result of the store fetch `r.Get` inside `getOrCreateClusterOperator`:
the record was found, it was not found, or the call failed. -/
inductive GetResult where
  | found : ClusterOperatorStatus → GetResult
  | notFound : GetResult
  | errored : String → GetResult
deriving DecidableEq

/-- Result of the store create `r.Create` inside
`getOrCreateClusterOperator`. -/
inductive CreateResult where
  | ok : CreateResult
  | errored : String → CreateResult
deriving DecidableEq

/-- Outcome of one transition invocation: the record handed to the persist
call `r.Status().Update` (none when no persist call was issued), and the
error returned to the caller (none on success). -/
structure SyncOutcome where
  persisted : Option ClusterOperatorStatus
  err : Option String
deriving DecidableEq

/-- Name of the singleton ClusterOperator record (`clusterOperatorName`). -/
def clusterOperatorName : String := "cloud-controller-manager"

/-- Key under which the operator's own version is recorded
(`operatorVersionKey`). -/
def operatorVersionKey : String := "operator"

/-- Namespace the operator itself runs in (`defaultManagementNamespace`). -/
def defaultManagementNamespace : String := "openshift-cloud-controller-manager-operator"

/-- Modelled from the spec: `v1helpers.FindStatusCondition` (library-go,
not in src) returns the first condition with the given type, or none
(spec section 6: `findCondition(set, type) -> Condition|absent`). -/
def findStatusCondition : List StatusCondition → String → Option StatusCondition
  | [], _ => none
  | c :: cs, t => if c.type = t then some c else findStatusCondition cs t

/-- Modelled from the spec: `v1helpers.SetStatusCondition` (library-go, not
in src), the merge-engine step of spec section 4.2: find the existing
condition of the same type; if found and the status is unchanged keep the old
`lastTransitionTime` (adopting the update's status, reason and message),
otherwise adopt the update wholesale; if not found, append the update. -/
def setStatusCondition (conds : List StatusCondition) (newC : StatusCondition) :
    List StatusCondition :=
  match findStatusCondition conds newC.type with
  | none => conds ++ [newC]
  | some _ =>
      conds.map fun c =>
        if c.type = newC.type then
          if c.status = newC.status then
            { newC with lastTransitionTime := c.lastTransitionTime }
          else newC
        else c

/-- Merge a batch of condition updates into an existing ordered condition
set, one `setStatusCondition` step per update, in order. -/
def mergeConditions (conds : List StatusCondition)
    (updates : List StatusCondition) : List StatusCondition :=
  updates.foldl setStatusCondition conds

/-- Modelled from the spec: `v1helpers.RemoveStatusCondition` (library-go,
not in src) removes the condition of the given type from the set
(spec section 6: `removeCondition(set, type)`). -/
def removeStatusCondition (conds : List StatusCondition) (t : String) :
    List StatusCondition :=
  conds.filter fun c => decide (c.type ≠ t)

/-- Effect of one merge step on the condition of the updated type: absent
conditions are inserted as the update itself; a present condition with the
same status keeps its old transition time while adopting the update's other
fields; a status change adopts the update wholesale.  `findStatusCondition`
after `setStatusCondition` is exactly this function (proved below). -/
def applyCondition (x : Option StatusCondition) (u : StatusCondition) :
    StatusCondition :=
  match x with
  | none => u
  | some c =>
      if c.status = u.status then { u with lastTransitionTime := c.lastTransitionTime }
      else u

/-- Per-type view of merging a whole batch: fold `applyCondition` over the
updates of one type. -/
def condFold (x : Option StatusCondition) (us : List StatusCondition) :
    Option StatusCondition :=
  us.foldl (fun a u => some (applyCondition a u)) x

/-- Per-type view of merging a batch into an already-present condition. -/
def condFoldSome (c : StatusCondition) (us : List StatusCondition) : StatusCondition :=
  us.foldl (fun a u => applyCondition (some a) u) c

/-- Type skeleton of a condition list. -/
def typesOf (conds : List StatusCondition) : List String :=
  conds.map fun c => c.type

/-- Go's `strings.Join`. -/
def stringsJoin (elems : List String) (sep : String) : String :=
  match elems with
  | [] => ""
  | x :: xs => xs.foldl (fun acc e => acc ++ sep ++ e) x

/-- `printOperandVersions`: render a version list as
"name1: version1, name2: version2, ...". -/
def printOperandVersions (versions : List OperandVersion) : String :=
  stringsJoin (versions.map fun operand => operand.name ++ ": " ++ operand.version) ", "

/-- Go `fmt` output for the verb `%e` applied to a non-nil error produced by
`errors.New(msg)` (dynamic type `*errors.errorString`, which implements
neither `Formatter` nor any `%e`-eligible interface): fmt falls back to
reflection-driven printing of the pointed-to struct and emits
"&{%!e(string=msg)}".  `setStatusDegraded` formats its reconcile error with
`%e`, so this is the text that reaches the Degraded message. -/
def goFormatErrorWithEVerb (msg : String) : String :=
  "&\x7b%!e(string=" ++ msg ++ ")\x7d"

/-- `relatedObjects`: the fixed, deterministically ordered related-object
list (the operator's own namespace, the ClusterOperator self-reference with
group `configv1.GroupName`, and the managed namespace). -/
def relatedObjects (managedNamespace : String) : List ObjectReference :=
  [ { group := "", resource := "namespaces", name := defaultManagementNamespace },
    { group := "config.openshift.io", resource := "clusteroperators", name := clusterOperatorName },
    { group := "", resource := "namespaces", name := managedNamespace } ]

/-- `getOrCreateClusterOperator`: fetch the ClusterOperator; on not-found,
create a fresh one with an empty status; wrap fetch and create failures in
descriptive messages (Go `fmt.Errorf`). -/
def getOrCreateClusterOperator (g : GetResult) (cr : CreateResult) :
    Except String ClusterOperatorStatus :=
  match g with
  | .notFound =>
      match cr with
      | .ok => .ok { conditions := [], versions := [], relatedObjects := [] }
      | .errored e => .error ("failed to create cluster operator: " ++ e)
  | .errored e =>
      .error ("failed to get clusterOperator \"cloud-controller-manager\": " ++ e)
  | .found co => .ok co

/-- Pure record transform performed by `syncStatus`: merge the policy
conditions, then the overrides, into the stored conditions; replace the
related objects wholesale when they differ from the resolver's output. -/
def syncRecord (managedNamespace : String) (co : ClusterOperatorStatus)
    (conds overrides : List StatusCondition) : ClusterOperatorStatus :=
  let afterConds := mergeConditions co.conditions conds
  let afterOverrides := mergeConditions afterConds overrides
  let co := { co with conditions := afterOverrides }
  if co.relatedObjects = relatedObjects managedNamespace then co
  else { co with relatedObjects := relatedObjects managedNamespace }

/-- `syncStatus`: apply the record transform and issue the persist call
`r.Status().Update` with the resulting record, unconditionally; its result
(`updErr`) is returned to the caller unchanged. -/
def syncStatus (r : ClusterOperatorStatusClient) (co : ClusterOperatorStatus)
    (conds overrides : List StatusCondition) (updErr : Option String) :
    SyncOutcome :=
  { persisted := some (syncRecord r.managedNamespace co conds overrides),
    err := updErr }

/-- Condition batch computed by `setStatusDegraded` (status.go lines 60-74):
Degraded True/SyncingFailed with a message that depends on whether the
stored versions match the desired ones, plus Upgradeable False/AsExpected.
The reconcile error is rendered through the `%e` verb. -/
def degradedConditions (r : ClusterOperatorStatusClient) (now : Nat)
    (co : ClusterOperatorStatus) (reconcileErrMsg : String) :
    List StatusCondition :=
  let desiredVersions : List OperandVersion :=
    [{ name := operatorVersionKey, version := r.releaseVersion }]
  let message :=
    if desiredVersions ≠ co.versions then
      "Failed when progressing towards " ++ printOperandVersions desiredVersions
        ++ " because " ++ goFormatErrorWithEVerb reconcileErrMsg
    else
      "Failed to resync for " ++ printOperandVersions desiredVersions
        ++ " because " ++ goFormatErrorWithEVerb reconcileErrMsg
  [ { type := "Degraded", status := "True", lastTransitionTime := now,
      reason := "SyncingFailed", message := message },
    { type := "Upgradeable", status := "False", lastTransitionTime := now,
      reason := "AsExpected", message := "" } ]

/-- `setStatusDegraded`: fetch or create the record, compute the Degraded
condition batch and sync. -/
def setStatusDegraded (r : ClusterOperatorStatusClient) (now : Nat)
    (g : GetResult) (cr : CreateResult) (updErr : Option String)
    (reconcileErrMsg : String) (overrides : List StatusCondition) :
    SyncOutcome :=
  match getOrCreateClusterOperator g cr with
  | .error e => { persisted := none, err := some e }
  | .ok co => syncStatus r co (degradedConditions r now co reconcileErrMsg) overrides updErr

/-- Condition batch computed by `setStatusProgressing` (status.go lines
91-108): Progressing True with SyncingResources and an upgrade message when
the stored versions differ from the desired ones, otherwise AsExpected with
an empty message; plus Upgradeable True/AsExpected. -/
def progressingConditions (r : ClusterOperatorStatusClient) (now : Nat)
    (co : ClusterOperatorStatus) : List StatusCondition :=
  let desiredVersions : List OperandVersion :=
    [{ name := operatorVersionKey, version := r.releaseVersion }]
  let message :=
    if desiredVersions ≠ co.versions then
      "Progressing towards " ++ printOperandVersions desiredVersions
    else ""
  let reason :=
    if desiredVersions ≠ co.versions then "SyncingResources" else "AsExpected"
  [ { type := "Progressing", status := "True", lastTransitionTime := now,
      reason := reason, message := message },
    { type := "Upgradeable", status := "True", lastTransitionTime := now,
      reason := "AsExpected", message := "" } ]

/-- `setStatusProgressing`: fetch or create the record, compute the
Progressing condition batch and sync. -/
def setStatusProgressing (r : ClusterOperatorStatusClient) (now : Nat)
    (g : GetResult) (cr : CreateResult) (updErr : Option String)
    (overrides : List StatusCondition) : SyncOutcome :=
  match getOrCreateClusterOperator g cr with
  | .error e => { persisted := none, err := some e }
  | .ok co => syncStatus r co (progressingConditions r now co) overrides updErr

/-- Condition batch computed by `setStatusAvailable` (status.go lines
121-127): Available True, Progressing False, Degraded False, Upgradeable
True, all AsExpected. -/
def availableConditions (r : ClusterOperatorStatusClient) (now : Nat) :
    List StatusCondition :=
  [ { type := "Available", status := "True", lastTransitionTime := now,
      reason := "AsExpected",
      message := "Cluster Cloud Controller Manager Operator is available at " ++ r.releaseVersion },
    { type := "Progressing", status := "False", lastTransitionTime := now,
      reason := "AsExpected", message := "" },
    { type := "Degraded", status := "False", lastTransitionTime := now,
      reason := "AsExpected", message := "" },
    { type := "Upgradeable", status := "True", lastTransitionTime := now,
      reason := "AsExpected", message := "" } ]

/-- `setStatusAvailable`: fetch or create the record, overwrite the versions
with the single desired entry, and sync the Available condition batch. -/
def setStatusAvailable (r : ClusterOperatorStatusClient) (now : Nat)
    (g : GetResult) (cr : CreateResult) (updErr : Option String)
    (overrides : List StatusCondition) : SyncOutcome :=
  match getOrCreateClusterOperator g cr with
  | .error e => { persisted := none, err := some e }
  | .ok co =>
      let co := { co with versions := [{ name := operatorVersionKey, version := r.releaseVersion }] }
      syncStatus r co (availableConditions r now) overrides updErr

/-- Modelled from the spec: the name of the legacy CloudControllerOwner
condition (`cloudControllerOwnershipCondition`, declared outside src); the
removal transition of spec section 4.4 retires this condition. -/
def cloudControllerOwnershipCondition : String := "CloudControllerOwner"

/-- `clearCloudControllerOwnerCondition`: fetch or create the record; if the
condition set is empty or the CloudControllerOwner condition is absent, do
nothing (no write, no error); otherwise remove it, stamp the release version
into the versions, and sync with empty batches. -/
def clearCloudControllerOwnerCondition (r : ClusterOperatorStatusClient)
    (g : GetResult) (cr : CreateResult) (updErr : Option String) :
    SyncOutcome :=
  match getOrCreateClusterOperator g cr with
  | .error e => { persisted := none, err := some e }
  | .ok co =>
      if co.conditions = [] then { persisted := none, err := none }
      else if findStatusCondition co.conditions cloudControllerOwnershipCondition = none then
        { persisted := none, err := none }
      else
        let co := { co with
          conditions := removeStatusCondition co.conditions cloudControllerOwnershipCondition,
          versions := [{ name := operatorVersionKey, version := r.releaseVersion }] }
        syncStatus r co [] [] updErr

/-- Versions field of the record handed to the persist call, if any. -/
def persistedVersions (o : SyncOutcome) : Option (List OperandVersion) :=
  o.persisted.map fun rec => rec.versions

/-- PEM block (`pem.Block`): the preamble type and the decoded bytes.  Raw
certificate data is modelled as a list of bytes (naturals). -/
structure PemBlock where
  blockType : String
  bytes : List Nat
deriving DecidableEq

/-- Interface of `pem.Decode`: on success it yields the first block and the
remainder of the input, which is strictly shorter (the block's BEGIN/END
lines are consumed); on failure it yields none. -/
def DecodeFun : Type :=
  (s : List Nat) → Option { pr : PemBlock × List Nat // pr.2.length < s.length }

/-- Loop of `CertificateData`, structurally recursive on a fuel bound that
dominates the input length (the decode interface consumes at least one byte
per block, so the fuel never runs out when it starts at the input length):
while input remains, decode a PEM block, require type "CERTIFICATE", parse
it as an x509 certificate, and accumulate the parsed certificates. -/
def certificateDataLoop {α : Type} (decode : DecodeFun)
    (parseCertificate : List Nat → Except String α) :
    Nat → List Nat → List α → Except String (List α)
  | _, [], certBundle => .ok certBundle
  | 0, _ :: _, _ => .error "failed to parse certificate PEM"
  | fuel + 1, b :: bs, certBundle =>
      match decode (b :: bs) with
      | none => .error "failed to parse certificate PEM"
      | some ⟨(block, rest), _⟩ =>
          if block.blockType ≠ "CERTIFICATE" then
            .error "invalid certificate PEM, must be of type \"CERTIFICATE\""
          else
            match parseCertificate block.bytes with
            | .error e => .error ("failed to parse certificate: " ++ e)
            | .ok cert => certificateDataLoop decode parseCertificate fuel rest (certBundle ++ [cert])

/-- `CertificateData`: decode `certData` block by block, ensuring each PEM
block has type "CERTIFICATE" and parses as an x509 certificate, returning
the parsed certificates; `pem.Decode` and `x509.ParseCertificate` are the
supplied `decode` and `parseCertificate` functions. -/
def CertificateData {α : Type} (decode : DecodeFun)
    (parseCertificate : List Nat → Except String α) (certData : List Nat) :
    Except String (List α) :=
  certificateDataLoop decode parseCertificate certData.length certData []

/-- Specification relation for `CertificateData`: `ParsesTo decode parse s l`
holds when `s` is a chain of PEM blocks, each of type "CERTIFICATE" and each
parsing successfully, whose certificates in input order are `l`. -/
inductive ParsesTo {α : Type} (decode : DecodeFun)
    (parseCertificate : List Nat → Except String α) : List Nat → List α → Prop where
  | nil : ParsesTo decode parseCertificate [] []
  | cons {s rest : List Nat} {block : PemBlock} {cert : α} {l : List α} :
      Option.map Subtype.val (decode s) = some (block, rest) →
      block.blockType = "CERTIFICATE" →
      parseCertificate block.bytes = .ok cert →
      ParsesTo decode parseCertificate rest l →
      ParsesTo decode parseCertificate s (cert :: l)

/-- Toy decoder used to exercise `CertificateData` on concrete inputs: each
byte is its own one-byte CERTIFICATE block. -/
def toyDecode : DecodeFun := fun s =>
  match s with
  | [] => none
  | n :: rest =>
      some ⟨({ blockType := "CERTIFICATE", bytes := [n] }, rest), Nat.lt_succ_self rest.length⟩

/-- Toy certificate parser used to exercise `CertificateData` on concrete
inputs: a block parses to its first byte. -/
def toyParse (bytes : List Nat) : Except String Nat :=
  .ok (bytes.headD 0)

/-- Client configuration used by the concrete scenarios: managed namespace
"openshift-cloud-controller-manager", release version "4.16.0". -/
def client416 : ClusterOperatorStatusClient :=
  { managedNamespace := "openshift-cloud-controller-manager",
    releaseVersion := "4.16.0" }

/-- Stored record that is already in the exact state the Progressing
transition would compute at matching versions: conditions, versions and
related objects all up to date (older transition times). -/
def co416 : ClusterOperatorStatus :=
  { conditions :=
      [ { type := "Progressing", status := "True", lastTransitionTime := 3,
          reason := "AsExpected", message := "" },
        { type := "Upgradeable", status := "True", lastTransitionTime := 3,
          reason := "AsExpected", message := "" } ],
    versions := [{ name := "operator", version := "4.16.0" }],
    relatedObjects := relatedObjects "openshift-cloud-controller-manager" }

/-- Stored record carrying the legacy CloudControllerOwner condition, so the
removal transition fires on it. -/
def coOwner : ClusterOperatorStatus :=
  { conditions :=
      [ { type := "CloudControllerOwner", status := "True", lastTransitionTime := 2,
          reason := "AsExpected", message := "" } ],
    versions := [],
    relatedObjects := [] }

/-- Stored record holding a single Degraded=True condition with transition
time 3; used to exercise a same-status double flip through policy conditions
plus overrides. -/
def co3 : ClusterOperatorStatus :=
  { conditions :=
      [ { type := "Degraded", status := "True", lastTransitionTime := 3,
          reason := "AsExpected", message := "m0" } ],
    versions := [{ name := "operator", version := "4.16.0" }],
    relatedObjects := relatedObjects "openshift-cloud-controller-manager" }

/-! Helper lemmas about the merge engine and the sync orchestrator. -/

theorem string_append_assoc (a b c : String) : a ++ b ++ c = a ++ (b ++ c) := by
  cases a with
  | mk la =>
      cases b with
      | mk lb =>
          cases c with
          | mk lc => exact congrArg String.mk (List.append_assoc la lb lc)

theorem printOperandVersions_single (n v : String) :
    printOperandVersions [{ name := n, version := v }] = n ++ ": " ++ v := rfl

theorem applyCondition_type (x : Option StatusCondition) (u : StatusCondition) :
    (applyCondition x u).type = u.type := by
  cases x with
  | none => rfl
  | some c => by_cases h : c.status = u.status <;> simp [applyCondition, h]

theorem applyCondition_status (x : Option StatusCondition) (u : StatusCondition) :
    (applyCondition x u).status = u.status := by
  cases x with
  | none => rfl
  | some c => by_cases h : c.status = u.status <;> simp [applyCondition, h]

theorem applyCondition_reason (x : Option StatusCondition) (u : StatusCondition) :
    (applyCondition x u).reason = u.reason := by
  cases x with
  | none => rfl
  | some c => by_cases h : c.status = u.status <;> simp [applyCondition, h]

theorem applyCondition_message (x : Option StatusCondition) (u : StatusCondition) :
    (applyCondition x u).message = u.message := by
  cases x with
  | none => rfl
  | some c => by_cases h : c.status = u.status <;> simp [applyCondition, h]

theorem find_append_single_eq (conds : List StatusCondition) (u : StatusCondition)
    (h : findStatusCondition conds u.type = none) :
    findStatusCondition (conds ++ [u]) u.type = some u := by
  induction conds with
  | nil => simp [findStatusCondition]
  | cons c cs ih =>
      by_cases hc : c.type = u.type
      · simp [findStatusCondition, hc] at h
      · simp only [findStatusCondition, if_neg hc] at h
        simpa [findStatusCondition, hc] using ih h

theorem find_append_single_ne (conds : List StatusCondition) (u : StatusCondition)
    (t : String) (h : t ≠ u.type) :
    findStatusCondition (conds ++ [u]) t = findStatusCondition conds t := by
  induction conds with
  | nil =>
      show findStatusCondition [u] t = none
      simp only [findStatusCondition]
      rw [if_neg (fun hh : u.type = t => h hh.symm)]
  | cons c cs ih =>
      by_cases hc : c.type = t <;> simp [findStatusCondition, hc, ih]

theorem find_map_ne (u : StatusCondition) (t : String) (h : ¬(t = u.type))
    (conds : List StatusCondition) :
    findStatusCondition
      (conds.map fun c =>
        if c.type = u.type then
          if c.status = u.status then { u with lastTransitionTime := c.lastTransitionTime }
          else u
        else c) t = findStatusCondition conds t := by
  induction conds with
  | nil => rfl
  | cons c cs ih =>
      simp only [List.map, findStatusCondition]
      by_cases hc : c.type = u.type
      · rw [if_pos hc]
        by_cases hs : c.status = u.status
        · rw [if_pos hs, if_neg (fun hh : u.type = t => h hh.symm),
            if_neg (fun hh : c.type = t => h (hh.symm.trans hc))]
          exact ih
        · rw [if_neg hs, if_neg (fun hh : u.type = t => h hh.symm),
            if_neg (fun hh : c.type = t => h (hh.symm.trans hc))]
          exact ih
      · rw [if_neg hc]
        by_cases hct : c.type = t
        · rw [if_pos hct, if_pos hct]
        · rw [if_neg hct, if_neg hct]
          exact ih

theorem find_setStep_present (u : StatusCondition) (conds : List StatusCondition)
    (c₀ : StatusCondition) (h : findStatusCondition conds u.type = some c₀)
    (t : String) :
    findStatusCondition
        (conds.map fun c =>
          if c.type = u.type then
            if c.status = u.status then { u with lastTransitionTime := c.lastTransitionTime }
            else u
          else c) t =
      (if t = u.type then some (applyCondition (some c₀) u)
       else findStatusCondition conds t) := by
  induction conds with
  | nil => exact absurd h (by simp [findStatusCondition])
  | cons c cs ih =>
      simp only [List.map, findStatusCondition]
      by_cases hc : c.type = u.type
      · have hc₀ : c₀ = c := by
          simp only [findStatusCondition, if_pos hc] at h
          exact (Option.some.inj h).symm
        by_cases ht : t = u.type
        · rw [if_pos hc]
          by_cases hs : c.status = u.status
          · rw [if_pos hs, if_pos (show u.type = t from ht.symm), if_pos ht, hc₀]
            simp [applyCondition, hs]
          · rw [if_neg hs, if_pos (show u.type = t from ht.symm), if_pos ht, hc₀]
            simp [applyCondition, hs]
        · rw [if_pos hc]
          by_cases hs : c.status = u.status
          · rw [if_pos hs, if_neg (fun hh : u.type = t => ht hh.symm), if_neg ht,
              if_neg (fun hh : c.type = t => ht (hh.symm.trans hc))]
            exact find_map_ne u t ht cs
          · rw [if_neg hs, if_neg (fun hh : u.type = t => ht hh.symm), if_neg ht,
              if_neg (fun hh : c.type = t => ht (hh.symm.trans hc))]
            exact find_map_ne u t ht cs
      · have h' : findStatusCondition cs u.type = some c₀ := by
          simpa [findStatusCondition, hc] using h
        rw [if_neg hc]
        by_cases hct : c.type = t
        · rw [if_pos hct, if_neg (fun hh : t = u.type => hc (hct.trans hh)), if_pos hct]
        · rw [if_neg hct, ih h']
          by_cases ht : t = u.type
          · rw [if_pos ht, if_pos ht]
          · rw [if_neg ht, if_neg ht, if_neg hct]

theorem find_setStatusCondition (conds : List StatusCondition)
    (u : StatusCondition) (t : String) :
    findStatusCondition (setStatusCondition conds u) t =
      (if t = u.type then some (applyCondition (findStatusCondition conds u.type) u)
       else findStatusCondition conds t) := by
  cases hfind : findStatusCondition conds u.type with
  | none =>
      unfold setStatusCondition
      rw [hfind]
      by_cases ht : t = u.type
      · subst ht
        rw [if_pos rfl, find_append_single_eq conds u hfind]
        rfl
      · rw [if_neg ht, find_append_single_ne conds u t ht]
  | some c₀ =>
      unfold setStatusCondition
      rw [hfind]
      exact find_setStep_present u conds c₀ hfind t

theorem condFold_cons (x : Option StatusCondition) (u : StatusCondition)
    (us : List StatusCondition) :
    condFold x (u :: us) = condFold (some (applyCondition x u)) us := rfl

theorem find_mergeConditions (conds us : List StatusCondition) (t : String) :
    findStatusCondition (mergeConditions conds us) t =
      condFold (findStatusCondition conds t) (us.filter fun u => decide (u.type = t)) := by
  induction us generalizing conds with
  | nil => rfl
  | cons u us ih =>
      have hstep : mergeConditions conds (u :: us) = mergeConditions (setStatusCondition conds u) us := rfl
      rw [hstep, ih, find_setStatusCondition]
      by_cases ht : t = u.type
      · subst ht
        rw [if_pos rfl]
        have hf : (u :: us).filter (fun c => decide (c.type = u.type)) =
            u :: us.filter (fun c => decide (c.type = u.type)) := by
          simp [List.filter_cons]
        rw [hf, condFold_cons]
      · rw [if_neg ht]
        have hd : (decide (u.type = t)) = false :=
          decide_eq_false (fun hh => ht hh.symm)
        have hf : (u :: us).filter (fun c => decide (c.type = t)) =
            us.filter (fun c => decide (c.type = t)) := by
          simp [List.filter_cons, hd]
        rw [hf]

theorem syncRecord_conditions (ns : String) (co : ClusterOperatorStatus)
    (conds ov : List StatusCondition) :
    (syncRecord ns co conds ov).conditions =
      mergeConditions (mergeConditions co.conditions conds) ov := by
  simp only [syncRecord]
  split <;> rfl

theorem syncRecord_versions (ns : String) (co : ClusterOperatorStatus)
    (conds ov : List StatusCondition) :
    (syncRecord ns co conds ov).versions = co.versions := by
  simp only [syncRecord]
  split <;> rfl

theorem syncRecord_relatedObjects (ns : String) (co : ClusterOperatorStatus)
    (conds ov : List StatusCondition) :
    (syncRecord ns co conds ov).relatedObjects = relatedObjects ns := by
  simp only [syncRecord]
  split
  next h => exact h
  next h => rfl

/-! Claim theorems. -/

/-- C1, counterexample: a sync invocation (the Progressing transition on
`co416`, whose conditions, versions and related objects are already exactly
what the sync computes) in which the resulting record equals the stored one,
yet the persist call `Status().Update` is still issued — `syncStatus`
persists unconditionally, refuting the claim that no persist call is made
when nothing changed. -/
theorem syncStatus_unchanged_record_still_persists :
    (setStatusProgressing client416 7 (GetResult.found co416) CreateResult.ok none []).persisted
        = some co416
    ∧ ((setStatusProgressing client416 7 (GetResult.found co416) CreateResult.ok none []).persisted).isSome
        = true := by
  exact ⟨by decide, by decide⟩

/-- C1 (amended): the sync orchestrator issues exactly one persist call on
every invocation that reaches it, whether or not the resulting record
differs from the stored one; only the related-objects field assignment is
guarded by a deep-equality check. -/
theorem syncStatus_always_issues_update (r : ClusterOperatorStatusClient)
    (now : Nat) (co : ClusterOperatorStatus)
    (conds overrides : List StatusCondition) (updErr : Option String)
    (reconcileErrMsg : String) :
    ((syncStatus r co conds overrides updErr).persisted).isSome = true
    ∧ ((setStatusDegraded r now (GetResult.found co) CreateResult.ok updErr
          reconcileErrMsg overrides).persisted).isSome = true
    ∧ ((setStatusProgressing r now (GetResult.found co) CreateResult.ok updErr
          overrides).persisted).isSome = true
    ∧ ((setStatusAvailable r now (GetResult.found co) CreateResult.ok updErr
          overrides).persisted).isSome = true := by
  exact ⟨rfl, rfl, rfl, rfl⟩

/-- C3, counterexample: one sync operation (the Available transition with a
caller override) on a record whose stored Degraded condition is True at time
3; the policy batch flips Degraded to False and the override flips it back
to True, so the final status equals the previously stored status while
`lastTransitionTime` changed from 3 to 7 — refuting the claim that the
timestamp changes only when the status changes relative to the previously
stored value. -/
theorem transition_time_net_status_counterexample :
    findStatusCondition co3.conditions "Degraded"
        = some { type := "Degraded", status := "True", lastTransitionTime := 3,
                 reason := "AsExpected", message := "m0" }
    ∧ ((setStatusAvailable client416 7 (GetResult.found co3) CreateResult.ok none
          [{ type := "Degraded", status := "True", lastTransitionTime := 7,
             reason := "Ovr", message := "om" }]).persisted).map
          (fun rec => findStatusCondition rec.conditions "Degraded")
        = some (some { type := "Degraded", status := "True", lastTransitionTime := 7,
                       reason := "Ovr", message := "om" }) := by
  exact ⟨by decide, by decide⟩

/-- C3 (amended): in each merge step performed by a sync, the condition of
the updated type keeps its `lastTransitionTime` whenever its status is
unchanged relative to the value in the set immediately before that step
(changes of reason or message alone never touch it), and when the status
does change the adopted timestamp is greater than or equal to the old one
provided the update is stamped no earlier than the stored condition. -/
theorem setStatusCondition_transition_time_rule
    (conds : List StatusCondition) (u : StatusCondition) (t : String)
    (c c' : StatusCondition)
    (hold : findStatusCondition conds t = some c)
    (hnew : findStatusCondition (setStatusCondition conds u) t = some c') :
    (c'.status = c.status → c'.lastTransitionTime = c.lastTransitionTime)
    ∧ (c.lastTransitionTime ≤ u.lastTransitionTime →
        c.lastTransitionTime ≤ c'.lastTransitionTime) := by
  rw [find_setStatusCondition] at hnew
  by_cases ht : t = u.type
  · rw [if_pos ht, ← ht, hold] at hnew
    have hc' : c' = applyCondition (some c) u := (Option.some.inj hnew).symm
    subst hc'
    have happ : applyCondition (some c) u =
        if c.status = u.status then { u with lastTransitionTime := c.lastTransitionTime }
        else u := rfl
    rw [happ]
    by_cases hs : c.status = u.status
    · rw [if_pos hs]
      exact ⟨fun _ => rfl, fun _ => Nat.le_refl _⟩
    · rw [if_neg hs]
      exact ⟨fun hh => absurd hh.symm hs, fun hh => hh⟩
  · rw [if_neg ht, hold] at hnew
    have hc' : c' = c := (Option.some.inj hnew).symm
    subst hc'
    exact ⟨fun _ => rfl, fun _ => Nat.le_refl _⟩

/-- C3 (amended), witness: concrete merge step on `co3` with a later-stamped
same-status update: the transition time is kept and monotonicity holds. -/
theorem setStatusCondition_transition_time_rule_witness :
    findStatusCondition co3.conditions "Degraded"
        = some { type := "Degraded", status := "True", lastTransitionTime := 3,
                 reason := "AsExpected", message := "m0" }
    ∧ findStatusCondition
        (setStatusCondition co3.conditions
          { type := "Degraded", status := "True", lastTransitionTime := 9,
            reason := "r2", message := "m2" }) "Degraded"
        = some { type := "Degraded", status := "True", lastTransitionTime := 3,
                 reason := "r2", message := "m2" }
    ∧ (({ type := "Degraded", status := "True", lastTransitionTime := 3,
          reason := "r2", message := "m2" } : StatusCondition).status
          = ({ type := "Degraded", status := "True", lastTransitionTime := 3,
               reason := "AsExpected", message := "m0" } : StatusCondition).status →
        (3 : Nat) = 3)
    ∧ ((3 : Nat) ≤ 9 → (3 : Nat) ≤ 3) :=
  ⟨by decide, by decide,
    (setStatusCondition_transition_time_rule co3.conditions
      { type := "Degraded", status := "True", lastTransitionTime := 9,
        reason := "r2", message := "m2" } "Degraded"
      { type := "Degraded", status := "True", lastTransitionTime := 3,
        reason := "AsExpected", message := "m0" }
      { type := "Degraded", status := "True", lastTransitionTime := 3,
        reason := "r2", message := "m2" } (by decide) (by decide)).1,
    (setStatusCondition_transition_time_rule co3.conditions
      { type := "Degraded", status := "True", lastTransitionTime := 9,
        reason := "r2", message := "m2" } "Degraded"
      { type := "Degraded", status := "True", lastTransitionTime := 3,
        reason := "AsExpected", message := "m0" }
      { type := "Degraded", status := "True", lastTransitionTime := 3,
        reason := "r2", message := "m2" } (by decide) (by decide)).2⟩

/-- C4: override precedence — whenever the override batch contains exactly
one condition of type `t`, the merged set produced by the sync orchestrator
carries that override's status at type `t`, regardless of what the policy
batch set for it; overrides are merged strictly after the policy batch. -/
theorem override_precedence (ns : String) (co : ClusterOperatorStatus)
    (conds overrides : List StatusCondition) (t : String) (o : StatusCondition)
    (h : overrides.filter (fun c => decide (c.type = t)) = [o]) :
    Option.map (fun c => c.status)
        (findStatusCondition (syncRecord ns co conds overrides).conditions t)
      = some o.status := by
  rw [syncRecord_conditions, find_mergeConditions, h, condFold_cons]
  simp [condFold, applyCondition_status]

/-- C4, witness: a concrete Upgradeable=False override beats the
Progressing policy batch (which sets Upgradeable=True). -/
theorem override_precedence_witness :
    (([{ type := "Upgradeable", status := "False", lastTransitionTime := 9,
          reason := "Ovr", message := "m" }] : List StatusCondition).filter
          (fun c => decide (c.type = "Upgradeable"))
        = [{ type := "Upgradeable", status := "False", lastTransitionTime := 9,
             reason := "Ovr", message := "m" }])
    ∧ Option.map (fun c => c.status)
        (findStatusCondition
          (syncRecord "ns" co416 (progressingConditions client416 7 co416)
            [{ type := "Upgradeable", status := "False", lastTransitionTime := 9,
               reason := "Ovr", message := "m" }]).conditions "Upgradeable")
      = some "False" :=
  ⟨by decide,
    override_precedence "ns" co416 (progressingConditions client416 7 co416)
      [{ type := "Upgradeable", status := "False", lastTransitionTime := 9,
         reason := "Ovr", message := "m" }] "Upgradeable"
      { type := "Upgradeable", status := "False", lastTransitionTime := 9,
        reason := "Ovr", message := "m" } (by decide)⟩

/-- C5: at the failing input (stored versions already equal to the desired
list, release version "4.16.0", reconcile error text "connection refused"),
the computed Degraded condition is True/SyncingFailed and Upgradeable is
forced to False/AsExpected as claimed, but the message renders the error
through the mistaken `%e` verb, yielding
"Failed to resync for operator: 4.16.0 because &{%!e(string=connection refused)}"
rather than the intended "... because connection refused". -/
theorem degraded_message_format_bug :
    degradedConditions client416 7 co416 "connection refused" =
      [ { type := "Degraded", status := "True", lastTransitionTime := 7,
          reason := "SyncingFailed",
          message := "Failed to resync for operator: 4.16.0 because &\x7b%!e(string=connection refused)\x7d" },
        { type := "Upgradeable", status := "False", lastTransitionTime := 7,
          reason := "AsExpected", message := "" } ]
    ∧ ("Failed to resync for operator: 4.16.0 because &\x7b%!e(string=connection refused)\x7d"
        ≠ "Failed to resync for operator: 4.16.0 because connection refused") := by
  exact ⟨by decide, by decide⟩

/-- C6, counterexample: a fetch failure "boom" is not returned verbatim; the
transition returns it wrapped as a "failed to get clusterOperator" error. -/
theorem fetch_error_not_returned_verbatim :
    (setStatusDegraded client416 7 (GetResult.errored "boom") CreateResult.ok none "e" []).err
        = some "failed to get clusterOperator \"cloud-controller-manager\": boom"
    ∧ (setStatusDegraded client416 7 (GetResult.errored "boom") CreateResult.ok none "e" []).err
        ≠ some "boom" := by
  exact ⟨by decide, by decide⟩

/-- C6 (amended): persist failures are returned to the caller unchanged and
without retry; fetch failures other than not-found are wrapped as
"failed to get clusterOperator ..." and create failures as
"failed to create cluster operator: ...", then propagated (still without
internal retry — no further store interaction happens). -/
theorem store_error_propagation (r : ClusterOperatorStatusClient) (now : Nat)
    (e reconcileErrMsg : String) (overrides : List StatusCondition)
    (co : ClusterOperatorStatus) :
    (setStatusDegraded r now (GetResult.errored e) CreateResult.ok none reconcileErrMsg overrides
        = { persisted := none,
            err := some ("failed to get clusterOperator \"cloud-controller-manager\": " ++ e) })
    ∧ (setStatusProgressing r now (GetResult.errored e) CreateResult.ok none overrides
        = { persisted := none,
            err := some ("failed to get clusterOperator \"cloud-controller-manager\": " ++ e) })
    ∧ (setStatusAvailable r now (GetResult.errored e) CreateResult.ok none overrides
        = { persisted := none,
            err := some ("failed to get clusterOperator \"cloud-controller-manager\": " ++ e) })
    ∧ (clearCloudControllerOwnerCondition r (GetResult.errored e) CreateResult.ok none
        = { persisted := none,
            err := some ("failed to get clusterOperator \"cloud-controller-manager\": " ++ e) })
    ∧ (setStatusDegraded r now GetResult.notFound (CreateResult.errored e) none reconcileErrMsg overrides
        = { persisted := none,
            err := some ("failed to create cluster operator: " ++ e) })
    ∧ ((setStatusDegraded r now (GetResult.found co) CreateResult.ok (some e) reconcileErrMsg overrides).err
        = some e)
    ∧ ((setStatusProgressing r now (GetResult.found co) CreateResult.ok (some e) overrides).err
        = some e)
    ∧ ((setStatusAvailable r now (GetResult.found co) CreateResult.ok (some e) overrides).err
        = some e) := by
  exact ⟨rfl, rfl, rfl, rfl, rfl, rfl, rfl, rfl⟩

/-- C7: only the Available transition changes the versions field — Degraded
and Progressing persist a record with the fetched versions unchanged;
Available persists exactly the single desired entry; the removal transition
is a pure no-op (no write at all) when the CloudControllerOwner condition is
absent, and persists exactly the single desired entry when it fires. -/
theorem versions_frame_effect (r : ClusterOperatorStatusClient) (now : Nat)
    (g : GetResult) (cr : CreateResult) (updErr : Option String)
    (reconcileErrMsg : String) (overrides : List StatusCondition)
    (co : ClusterOperatorStatus)
    (hco : getOrCreateClusterOperator g cr = .ok co) :
    persistedVersions (setStatusDegraded r now g cr updErr reconcileErrMsg overrides)
        = some co.versions
    ∧ persistedVersions (setStatusProgressing r now g cr updErr overrides)
        = some co.versions
    ∧ persistedVersions (setStatusAvailable r now g cr updErr overrides)
        = some [{ name := "operator", version := r.releaseVersion }]
    ∧ (findStatusCondition co.conditions cloudControllerOwnershipCondition = none →
        clearCloudControllerOwnerCondition r g cr updErr = { persisted := none, err := none })
    ∧ (∀ x, findStatusCondition co.conditions cloudControllerOwnershipCondition = some x →
        persistedVersions (clearCloudControllerOwnerCondition r g cr updErr)
          = some [{ name := "operator", version := r.releaseVersion }]) := by
  refine ⟨?_, ?_, ?_, ?_, ?_⟩
  · simp [setStatusDegraded, hco, syncStatus, persistedVersions, syncRecord_versions]
  · simp [setStatusProgressing, hco, syncStatus, persistedVersions, syncRecord_versions]
  · simp [setStatusAvailable, hco, syncStatus, persistedVersions, syncRecord_versions,
      operatorVersionKey]
  · intro habs
    simp only [clearCloudControllerOwnerCondition, hco]
    by_cases hnil : co.conditions = []
    · rw [if_pos hnil]
    · rw [if_neg hnil, if_pos habs]
  · intro x hx
    simp only [clearCloudControllerOwnerCondition, hco]
    have hnil : ¬(co.conditions = []) := by
      intro hh
      rw [hh] at hx
      exact Option.noConfusion hx
    rw [if_neg hnil,
      if_neg (show ¬(findStatusCondition co.conditions cloudControllerOwnershipCondition = none) from
        fun hh => by rw [hx] at hh; exact Option.noConfusion hh)]
    simp [syncStatus, persistedVersions, syncRecord_versions, operatorVersionKey]

/-- C7, witness: concrete frame effects — the Degraded transition on `co416`
keeps the stored versions; the removal transition on `coOwner` (which holds
the CloudControllerOwner condition) stamps exactly the desired entry. -/
theorem versions_frame_effect_witness :
    getOrCreateClusterOperator (GetResult.found co416) CreateResult.ok = .ok co416
    ∧ persistedVersions (setStatusDegraded client416 7 (GetResult.found co416) CreateResult.ok none "e" [])
        = some co416.versions
    ∧ findStatusCondition coOwner.conditions cloudControllerOwnershipCondition
        = some { type := "CloudControllerOwner", status := "True", lastTransitionTime := 2,
                 reason := "AsExpected", message := "" }
    ∧ persistedVersions (clearCloudControllerOwnerCondition client416 (GetResult.found coOwner) CreateResult.ok none)
        = some [{ name := "operator", version := "4.16.0" }] :=
  ⟨rfl,
    (versions_frame_effect client416 7 (GetResult.found co416) CreateResult.ok none "e" [] co416 rfl).1,
    by decide,
    (versions_frame_effect client416 7 (GetResult.found coOwner) CreateResult.ok none "e" [] coOwner rfl).2.2.2.2
      { type := "CloudControllerOwner", status := "True", lastTransitionTime := 2,
        reason := "AsExpected", message := "" } (by decide)⟩

/-- C8: the Progressing transition yields Progressing=True with reason
SyncingResources and message "Progressing towards operator: VERSION"
together with Upgradeable=True/AsExpected whenever the stored versions
differ from the desired single-element list, and Progressing=True with
reason AsExpected and an empty message (again with Upgradeable
True/AsExpected) when they already match. -/
theorem progressing_transition_outputs (r : ClusterOperatorStatusClient)
    (now : Nat) (co : ClusterOperatorStatus) :
    (co.versions ≠ [{ name := "operator", version := r.releaseVersion }] →
      progressingConditions r now co =
        [ { type := "Progressing", status := "True", lastTransitionTime := now,
            reason := "SyncingResources",
            message := "Progressing towards operator: " ++ r.releaseVersion },
          { type := "Upgradeable", status := "True", lastTransitionTime := now,
            reason := "AsExpected", message := "" } ])
    ∧ (co.versions = [{ name := "operator", version := r.releaseVersion }] →
      progressingConditions r now co =
        [ { type := "Progressing", status := "True", lastTransitionTime := now,
            reason := "AsExpected", message := "" },
          { type := "Upgradeable", status := "True", lastTransitionTime := now,
            reason := "AsExpected", message := "" } ]) := by
  constructor
  · intro h
    have hne : [{ name := operatorVersionKey, version := r.releaseVersion }] ≠ co.versions :=
      fun hh => h hh.symm
    simp only [progressingConditions]
    rw [if_pos hne, if_pos hne, printOperandVersions_single,
      ← string_append_assoc "Progressing towards " (operatorVersionKey ++ ": ") r.releaseVersion]
    rfl
  · intro h
    have heq : ¬([{ name := operatorVersionKey, version := r.releaseVersion }] ≠ co.versions) :=
      fun hh => hh h.symm
    simp only [progressingConditions]
    rw [if_neg heq, if_neg heq]

/-- C8, witness: concrete instances of both branches — a fresh empty record
progresses towards "4.16.0"; a record whose versions already match resyncs
with reason AsExpected and an empty message. -/
theorem progressing_transition_outputs_witness :
    ((⟨[], [], []⟩ : ClusterOperatorStatus).versions
        ≠ [{ name := "operator", version := "4.16.0" }])
    ∧ progressingConditions client416 7 ⟨[], [], []⟩ =
        [ { type := "Progressing", status := "True", lastTransitionTime := 7,
            reason := "SyncingResources",
            message := "Progressing towards operator: " ++ "4.16.0" },
          { type := "Upgradeable", status := "True", lastTransitionTime := 7,
            reason := "AsExpected", message := "" } ]
    ∧ co416.versions = [{ name := "operator", version := "4.16.0" }]
    ∧ progressingConditions client416 7 co416 =
        [ { type := "Progressing", status := "True", lastTransitionTime := 7,
            reason := "AsExpected", message := "" },
          { type := "Upgradeable", status := "True", lastTransitionTime := 7,
            reason := "AsExpected", message := "" } ] :=
  ⟨by decide,
    (progressing_transition_outputs client416 7 ⟨[], [], []⟩).1 (by decide),
    by decide,
    (progressing_transition_outputs client416 7 co416).2 (by decide)⟩

/-- C9: the removal transition on any successfully fetched record whose
condition set is empty or lacks the CloudControllerOwner condition is a
no-op success — no error, no persist call, record untouched. -/
theorem clear_owner_condition_noop (r : ClusterOperatorStatusClient)
    (g : GetResult) (cr : CreateResult) (updErr : Option String)
    (co : ClusterOperatorStatus)
    (hco : getOrCreateClusterOperator g cr = .ok co)
    (habs : findStatusCondition co.conditions cloudControllerOwnershipCondition = none) :
    clearCloudControllerOwnerCondition r g cr updErr = { persisted := none, err := none } := by
  simp only [clearCloudControllerOwnerCondition, hco]
  by_cases hnil : co.conditions = []
  · rw [if_pos hnil]
  · rw [if_neg hnil, if_pos habs]

/-- C9, witness: the removal transition on `co416` (no CloudControllerOwner
condition) issues no write and returns no error. -/
theorem clear_owner_condition_noop_witness :
    getOrCreateClusterOperator (GetResult.found co416) CreateResult.ok = .ok co416
    ∧ findStatusCondition co416.conditions cloudControllerOwnershipCondition = none
    ∧ clearCloudControllerOwnerCondition client416 (GetResult.found co416) CreateResult.ok none
        = { persisted := none, err := none } :=
  ⟨rfl, by decide,
    clear_owner_condition_noop client416 (GetResult.found co416) CreateResult.ok none co416
      rfl (by decide)⟩

/-! Lemmas about `CertificateData`. -/

theorem certificateDataLoop_nil {α : Type} (d : DecodeFun)
    (p : List Nat → Except String α) (fuel : Nat) (acc : List α) :
    certificateDataLoop d p fuel [] acc = .ok acc := by
  cases fuel <;> rfl

theorem certificateDataLoop_parsesTo {α : Type} (d : DecodeFun)
    (p : List Nat → Except String α) {s : List Nat} {l : List α}
    (hp : ParsesTo d p s l) :
    ∀ fuel acc, s.length ≤ fuel →
      certificateDataLoop d p fuel s acc = .ok (acc ++ l) := by
  induction hp with
  | nil =>
      intro fuel acc _
      simpa using certificateDataLoop_nil d p fuel acc
  | @cons s rest block cert l hdec hty hparse _ ih =>
      intro fuel acc hfuel
      obtain ⟨pr, hd, hval⟩ : ∃ pr, d s = some pr ∧ pr.val = (block, rest) := by
        cases hd : d s with
        | none => rw [hd] at hdec; cases hdec
        | some pr => rw [hd] at hdec; exact ⟨pr, rfl, Option.some.inj hdec⟩
      have hlt : rest.length < s.length := by
        have hpr := pr.property
        rw [hval] at hpr
        exact hpr
      cases s with
      | nil => exact absurd hlt (by simp)
      | cons b bs =>
          cases fuel with
          | zero => exact absurd hfuel (by simp)
          | succ f =>
              obtain ⟨⟨blk, rst⟩, hprop⟩ := pr
              have hblk : blk = block := congrArg Prod.fst hval
              have hrst : rst = rest := congrArg Prod.snd hval
              subst hblk
              subst hrst
              show certificateDataLoop d p (f + 1) (b :: bs) acc = .ok (acc ++ cert :: l)
              simp only [certificateDataLoop]
              rw [hd]
              dsimp only
              rw [if_neg (fun hh => hh hty), hparse]
              dsimp only
              rw [ih f (acc ++ [cert]) (Nat.lt_succ_iff.mp (Nat.lt_of_lt_of_le hlt hfuel))]
              simp

theorem certificateDataLoop_sound {α : Type} (d : DecodeFun)
    (p : List Nat → Except String α) :
    ∀ (fuel : Nat) (s : List Nat) (acc l' : List α),
      s.length ≤ fuel → certificateDataLoop d p fuel s acc = .ok l' →
      ∃ l, l' = acc ++ l ∧ ParsesTo d p s l := by
  intro fuel
  induction fuel with
  | zero =>
      intro s acc l' hlen heq
      cases s with
      | nil =>
          refine ⟨[], ?_, ParsesTo.nil⟩
          have : Except.ok (ε := String) acc = .ok l' := heq
          simpa using (Except.ok.inj this).symm
      | cons b bs => exact absurd hlen (by simp)
  | succ f ih =>
      intro s acc l' hlen heq
      cases s with
      | nil =>
          refine ⟨[], ?_, ParsesTo.nil⟩
          have : Except.ok (ε := String) acc = .ok l' := heq
          simpa using (Except.ok.inj this).symm
      | cons b bs =>
          simp only [certificateDataLoop] at heq
          cases hd : d (b :: bs) with
          | none => rw [hd] at heq; cases heq
          | some pr =>
              obtain ⟨⟨blk, rst⟩, hprop⟩ := pr
              rw [hd] at heq
              dsimp only at heq
              by_cases hty : blk.blockType = "CERTIFICATE"
              · rw [if_neg (fun hh => hh hty)] at heq
                cases hp : p blk.bytes with
                | error e => rw [hp] at heq; cases heq
                | ok cert =>
                    rw [hp] at heq
                    dsimp only at heq
                    have hrl : rst.length ≤ f :=
                      Nat.lt_succ_iff.mp (Nat.lt_of_lt_of_le hprop hlen)
                    obtain ⟨l, hl, hp2⟩ := ih rst (acc ++ [cert]) l' hrl heq
                    refine ⟨cert :: l, by simp [hl], ?_⟩
                    exact ParsesTo.cons (by rw [hd]; rfl) hty hp hp2
              · rw [if_pos hty] at heq
                cases heq

/-- C10: `CertificateData` characterised — on the empty input it returns the
empty certificate list with no error (the loop never runs); every successful
run returns exactly the certificates of a chain of "CERTIFICATE" PEM blocks
covering the whole input, in input order; and every such chain makes the run
succeed with exactly those certificates — so an error is returned if and
only if some PEM block fails to decode, has a type other than "CERTIFICATE",
or fails certificate parsing. -/
theorem certificateData_spec {α : Type} (decode : DecodeFun)
    (parseCertificate : List Nat → Except String α) :
    (CertificateData decode parseCertificate [] = .ok ([] : List α))
    ∧ (∀ s l, CertificateData decode parseCertificate s = .ok l →
        ParsesTo decode parseCertificate s l)
    ∧ (∀ s l, ParsesTo decode parseCertificate s l →
        CertificateData decode parseCertificate s = .ok l) := by
  refine ⟨rfl, ?_, ?_⟩
  · intro s l h
    obtain ⟨l₂, hl, hp⟩ :=
      certificateDataLoop_sound decode parseCertificate s.length s [] l (Nat.le_refl _) h
    simpa [hl] using hp
  · intro s l h
    simpa using certificateDataLoop_parsesTo decode parseCertificate h s.length [] (Nat.le_refl _)

/-- C10, witness: the toy decoder splits [5] into one CERTIFICATE block
parsing to 5; `CertificateData` succeeds accordingly, and succeeds with the
empty list on empty input. -/
theorem certificateData_spec_witness :
    CertificateData toyDecode toyParse [] = .ok ([] : List Nat)
    ∧ ParsesTo toyDecode toyParse [5] [5]
    ∧ CertificateData toyDecode toyParse [5] = .ok [5] :=
  have hp : ParsesTo toyDecode toyParse [5] [5] :=
    ParsesTo.cons (rfl) (rfl) (rfl) ParsesTo.nil
  ⟨(certificateData_spec toyDecode toyParse).1, hp,
    (certificateData_spec toyDecode toyParse).2.2 [5] [5] hp⟩

/-! Per-type lemmas towards idempotence of the merge engine. -/

theorem condFold_some (c : StatusCondition) (us : List StatusCondition) :
    condFold (some c) us = some (condFoldSome c us) := by
  induction us generalizing c with
  | nil => rfl
  | cons u rs ih => exact ih (applyCondition (some c) u)

theorem applyCondition_some_agree (c u : StatusCondition)
    (h1 : c.type = u.type) (h2 : c.status = u.status) (h3 : c.reason = u.reason)
    (h4 : c.message = u.message) : applyCondition (some c) u = c := by
  have e : applyCondition (some c) u =
      if c.status = u.status then { u with lastTransitionTime := c.lastTransitionTime }
      else u := rfl
  rw [e, if_pos h2]
  cases c
  cases u
  simp_all

theorem condFoldSome_time_indep (ws : List StatusCondition) :
    ∀ (a b : StatusCondition), a.type = b.type → a.status = b.status →
      a.reason = b.reason → a.message = b.message →
      (∀ v ∈ ws, v.status = a.status) ∨ condFoldSome a ws = condFoldSome b ws := by
  induction ws with
  | nil =>
      intro a b _ _ _ _
      left
      intro v hv
      exact absurd hv (List.not_mem_nil v)
  | cons w vs ih =>
      intro a b h1 h2 h3 h4
      by_cases hw : w.status = a.status
      · have ea : applyCondition (some a) w = { w with lastTransitionTime := a.lastTransitionTime } := by
          have e : applyCondition (some a) w =
              if a.status = w.status then { w with lastTransitionTime := a.lastTransitionTime }
              else w := rfl
          rw [e, if_pos hw.symm]
        have eb : applyCondition (some b) w = { w with lastTransitionTime := b.lastTransitionTime } := by
          have e : applyCondition (some b) w =
              if b.status = w.status then { w with lastTransitionTime := b.lastTransitionTime }
              else w := rfl
          rw [e, if_pos (h2.symm.trans hw.symm)]
        rcases ih (applyCondition (some a) w) (applyCondition (some b) w)
            (by rw [ea, eb]) (by rw [ea, eb]) (by rw [ea, eb]) (by rw [ea, eb]) with hall | heq
        · left
          intro v hv
          rcases List.mem_cons.mp hv with hv | hv
          · rw [hv]
            exact hw
          · have hva := hall v hv
            rw [applyCondition_status] at hva
            exact hva.trans hw
        · right
          exact heq
      · have ea : applyCondition (some a) w = w := by
          have e : applyCondition (some a) w =
              if a.status = w.status then { w with lastTransitionTime := a.lastTransitionTime }
              else w := rfl
          rw [e, if_neg (fun hh : a.status = w.status => hw hh.symm)]
        have eb : applyCondition (some b) w = w := by
          have e : applyCondition (some b) w =
              if b.status = w.status then { w with lastTransitionTime := b.lastTransitionTime }
              else w := rfl
          rw [e, if_neg (fun hh : b.status = w.status => hw (h2.trans hh).symm)]
        right
        show condFoldSome (applyCondition (some a) w) vs = condFoldSome (applyCondition (some b) w) vs
        rw [ea, eb]

theorem condFoldSome_status_const (ws : List StatusCondition) :
    ∀ (x : StatusCondition), (∀ v ∈ ws, v.status = x.status) →
      (condFoldSome x ws).status = x.status := by
  induction ws with
  | nil => intro x _; rfl
  | cons w vs ih =>
      intro x h
      have hw : w.status = x.status := h w (List.mem_cons_self w vs)
      have hx' : (applyCondition (some x) w).status = w.status := applyCondition_status _ _
      have hall : ∀ v ∈ vs, v.status = (applyCondition (some x) w).status := by
        intro v hv
        rw [hx']
        exact (h v (List.mem_cons_of_mem w hv)).trans hw.symm
      show (condFoldSome (applyCondition (some x) w) vs).status = x.status
      rw [ih _ hall, hx', hw]

theorem condFoldSome_replay (rs : List StatusCondition) :
    ∀ (c1 u : StatusCondition), c1.type = u.type → c1.status = u.status →
      c1.reason = u.reason → c1.message = u.message →
      condFoldSome (applyCondition (some (condFoldSome c1 rs)) u) rs = condFoldSome c1 rs := by
  induction rs with
  | nil =>
      intro c1 u h1 h2 h3 h4
      exact applyCondition_some_agree c1 u h1 h2 h3 h4
  | cons w ws ih =>
      intro c1 u h1 h2 h3 h4
      have hdm : condFoldSome c1 (w :: ws) = condFoldSome (applyCondition (some c1) w) ws := rfl
      by_cases hdu : (condFoldSome c1 (w :: ws)).status = u.status
      · have e1 : applyCondition (some (condFoldSome c1 (w :: ws))) u =
            { u with lastTransitionTime := (condFoldSome c1 (w :: ws)).lastTransitionTime } := by
          have e : applyCondition (some (condFoldSome c1 (w :: ws))) u =
              if (condFoldSome c1 (w :: ws)).status = u.status then
                { u with lastTransitionTime := (condFoldSome c1 (w :: ws)).lastTransitionTime }
              else u := rfl
          rw [e, if_pos hdu]
        rw [e1]
        show condFoldSome
            (applyCondition
              (some { u with lastTransitionTime := (condFoldSome c1 (w :: ws)).lastTransitionTime }) w)
            ws = condFoldSome c1 (w :: ws)
        have e2 : applyCondition
            (some { u with lastTransitionTime := (condFoldSome c1 (w :: ws)).lastTransitionTime }) w
            = applyCondition (some (condFoldSome c1 (w :: ws))) w := by
          by_cases huw : u.status = w.status
          · have l1 : applyCondition
                (some { u with lastTransitionTime := (condFoldSome c1 (w :: ws)).lastTransitionTime }) w
                = { w with lastTransitionTime := (condFoldSome c1 (w :: ws)).lastTransitionTime } := by
              have e : applyCondition
                  (some { u with lastTransitionTime := (condFoldSome c1 (w :: ws)).lastTransitionTime }) w
                  = if u.status = w.status then
                      { w with lastTransitionTime := (condFoldSome c1 (w :: ws)).lastTransitionTime }
                    else w := rfl
              rw [e, if_pos huw]
            have l2 : applyCondition (some (condFoldSome c1 (w :: ws))) w
                = { w with lastTransitionTime := (condFoldSome c1 (w :: ws)).lastTransitionTime } := by
              have e : applyCondition (some (condFoldSome c1 (w :: ws))) w
                  = if (condFoldSome c1 (w :: ws)).status = w.status then
                      { w with lastTransitionTime := (condFoldSome c1 (w :: ws)).lastTransitionTime }
                    else w := rfl
              rw [e, if_pos (hdu.trans huw)]
            rw [l1, l2]
          · have l1 : applyCondition
                (some { u with lastTransitionTime := (condFoldSome c1 (w :: ws)).lastTransitionTime }) w
                = w := by
              have e : applyCondition
                  (some { u with lastTransitionTime := (condFoldSome c1 (w :: ws)).lastTransitionTime }) w
                  = if u.status = w.status then
                      { w with lastTransitionTime := (condFoldSome c1 (w :: ws)).lastTransitionTime }
                    else w := rfl
              rw [e, if_neg huw]
            have l2 : applyCondition (some (condFoldSome c1 (w :: ws))) w = w := by
              have e : applyCondition (some (condFoldSome c1 (w :: ws))) w
                  = if (condFoldSome c1 (w :: ws)).status = w.status then
                      { w with lastTransitionTime := (condFoldSome c1 (w :: ws)).lastTransitionTime }
                    else w := rfl
              rw [e, if_neg (fun hh => huw (hdu.symm.trans hh))]
            rw [l1, l2]
        rw [e2, hdm]
        exact ih (applyCondition (some c1) w) w (applyCondition_type _ _)
          (applyCondition_status _ _) (applyCondition_reason _ _) (applyCondition_message _ _)
      · have e1 : applyCondition (some (condFoldSome c1 (w :: ws))) u = u := by
          have e : applyCondition (some (condFoldSome c1 (w :: ws))) u =
              if (condFoldSome c1 (w :: ws)).status = u.status then
                { u with lastTransitionTime := (condFoldSome c1 (w :: ws)).lastTransitionTime }
              else u := rfl
          rw [e, if_neg hdu]
        rw [e1]
        show condFoldSome (applyCondition (some u) w) ws = condFoldSome c1 (w :: ws)
        by_cases huw : u.status = w.status
        · have ea : applyCondition (some u) w = { w with lastTransitionTime := u.lastTransitionTime } := by
            have e : applyCondition (some u) w =
                if u.status = w.status then { w with lastTransitionTime := u.lastTransitionTime }
                else w := rfl
            rw [e, if_pos huw]
          have eb : applyCondition (some c1) w = { w with lastTransitionTime := c1.lastTransitionTime } := by
            have e : applyCondition (some c1) w =
                if c1.status = w.status then { w with lastTransitionTime := c1.lastTransitionTime }
                else w := rfl
            rw [e, if_pos (h2.trans huw)]
          rw [ea, hdm, eb]
          rcases condFoldSome_time_indep ws
              { w with lastTransitionTime := u.lastTransitionTime }
              { w with lastTransitionTime := c1.lastTransitionTime }
              rfl rfl rfl rfl with hall | heq
          · exfalso
            apply hdu
            rw [hdm, eb]
            have hst : (condFoldSome ({ w with lastTransitionTime := c1.lastTransitionTime } : StatusCondition) ws).status
                = ({ w with lastTransitionTime := c1.lastTransitionTime } : StatusCondition).status := by
              apply condFoldSome_status_const
              intro v hv
              exact hall v hv
            rw [hst]
            exact huw.symm
          · rw [heq]
        · have ea : applyCondition (some u) w = w := by
            have e : applyCondition (some u) w =
                if u.status = w.status then { w with lastTransitionTime := u.lastTransitionTime }
                else w := rfl
            rw [e, if_neg huw]
          have eb : applyCondition (some c1) w = w := by
            have e : applyCondition (some c1) w =
                if c1.status = w.status then { w with lastTransitionTime := c1.lastTransitionTime }
                else w := rfl
            rw [e, if_neg (fun hh : c1.status = w.status => huw (h2.symm.trans hh))]
          rw [ea, hdm, eb]

theorem condFold_replay (x : Option StatusCondition) (us : List StatusCondition) :
    condFold (condFold x us) us = condFold x us := by
  cases us with
  | nil => rfl
  | cons u rs =>
      have h1 : condFold x (u :: rs) = some (condFoldSome (applyCondition x u) rs) := by
        rw [condFold_cons, condFold_some]
      rw [h1, condFold_cons, condFold_some]
      rw [condFoldSome_replay rs (applyCondition x u) u (applyCondition_type x u)
        (applyCondition_status x u) (applyCondition_reason x u) (applyCondition_message x u)]

/-! List-level lemmas towards idempotence of the merge engine. -/

theorem typesOf_map_set (u : StatusCondition) (conds : List StatusCondition) :
    typesOf
      (conds.map fun c =>
        if c.type = u.type then
          if c.status = u.status then { u with lastTransitionTime := c.lastTransitionTime }
          else u
        else c) = typesOf conds := by
  have hft : ∀ c : StatusCondition,
      (if c.type = u.type then
        if c.status = u.status then { u with lastTransitionTime := c.lastTransitionTime }
        else u
      else c).type = c.type := by
    intro c
    by_cases hc : c.type = u.type
    · by_cases hs : c.status = u.status
      · rw [if_pos hc, if_pos hs]
        exact hc.symm
      · rw [if_pos hc, if_neg hs]
        exact hc.symm
    · rw [if_neg hc]
  induction conds with
  | nil => rfl
  | cons c cs ih =>
      simp only [List.map, typesOf]
      rw [hft c]
      exact congrArg (fun l => c.type :: l) ih

theorem typesOf_setStatusCondition_present (conds : List StatusCondition)
    (u c₀ : StatusCondition) (h : findStatusCondition conds u.type = some c₀) :
    typesOf (setStatusCondition conds u) = typesOf conds := by
  unfold setStatusCondition
  rw [h]
  exact typesOf_map_set u conds

theorem typesOf_setStatusCondition_absent (conds : List StatusCondition)
    (u : StatusCondition) (h : findStatusCondition conds u.type = none) :
    typesOf (setStatusCondition conds u) = typesOf conds ++ [u.type] := by
  unfold setStatusCondition
  rw [h]
  simp [typesOf]

theorem find_eq_none_iff_not_mem (conds : List StatusCondition) (t : String) :
    findStatusCondition conds t = none ↔ t ∉ typesOf conds := by
  induction conds with
  | nil => simp [findStatusCondition, typesOf]
  | cons c cs ih =>
      by_cases hc : c.type = t
      · constructor
        · intro h
          exact absurd h (by simp [findStatusCondition, hc])
        · intro h
          exact absurd (by simp [typesOf, List.mem_cons]; exact Or.inl hc.symm) h
      · have l1 : findStatusCondition (c :: cs) t = findStatusCondition cs t := by
          simp [findStatusCondition, hc]
        rw [l1, ih]
        simp only [typesOf, List.map, List.mem_cons]
        constructor
        · intro h hh
          rcases hh with hh | hh
          · exact hc hh.symm
          · exact h hh
        · intro h hh
          exact h (Or.inr hh)

theorem condFold_ne_none (x : Option StatusCondition) (l : List StatusCondition)
    (h : x ≠ none) : condFold x l ≠ none := by
  cases l with
  | nil => exact h
  | cons u rs =>
      rw [condFold_cons, condFold_some]
      exact fun hh => Option.noConfusion hh

theorem find_mergeConditions_ne_none (conds us : List StatusCondition) (t : String)
    (h : findStatusCondition conds t ≠ none) :
    findStatusCondition (mergeConditions conds us) t ≠ none := by
  rw [find_mergeConditions]
  exact condFold_ne_none _ _ h

theorem find_mergeConditions_mem_ne_none (conds us : List StatusCondition)
    (u : StatusCondition) (hu : u ∈ us) :
    findStatusCondition (mergeConditions conds us) u.type ≠ none := by
  induction us generalizing conds with
  | nil => exact absurd hu (List.not_mem_nil u)
  | cons v vs ih =>
      rcases List.mem_cons.mp hu with h | h
      · subst h
        show findStatusCondition (mergeConditions (setStatusCondition conds u) vs) u.type ≠ none
        apply find_mergeConditions_ne_none
        rw [find_setStatusCondition, if_pos rfl]
        exact fun hh => Option.noConfusion hh
      · show findStatusCondition (mergeConditions (setStatusCondition conds v) vs) u.type ≠ none
        exact ih (setStatusCondition conds v) h

theorem typesOf_mergeConditions_stable (us : List StatusCondition) :
    ∀ conds, (∀ u ∈ us, findStatusCondition conds u.type ≠ none) →
      typesOf (mergeConditions conds us) = typesOf conds := by
  induction us with
  | nil => intro conds _; rfl
  | cons v vs ih =>
      intro conds h
      have hv := h v (List.mem_cons_self v vs)
      cases hf : findStatusCondition conds v.type with
      | none => exact absurd hf hv
      | some c₀ =>
          have hstep : typesOf (setStatusCondition conds v) = typesOf conds :=
            typesOf_setStatusCondition_present conds v c₀ hf
          have hrest : typesOf (mergeConditions (setStatusCondition conds v) vs)
              = typesOf (setStatusCondition conds v) := by
            apply ih
            intro u hu
            rw [find_setStatusCondition]
            by_cases ht : u.type = v.type
            · rw [if_pos ht]
              exact fun hh => Option.noConfusion hh
            · rw [if_neg ht]
              exact h u (List.mem_cons_of_mem v hu)
          exact hrest.trans hstep

theorem nodup_typesOf_mergeConditions (us : List StatusCondition) :
    ∀ conds, (typesOf conds).Nodup → (typesOf (mergeConditions conds us)).Nodup := by
  induction us with
  | nil => intro conds h; exact h
  | cons v vs ih =>
      intro conds h
      apply ih
      cases hf : findStatusCondition conds v.type with
      | some c₀ =>
          rw [typesOf_setStatusCondition_present conds v c₀ hf]
          exact h
      | none =>
          rw [typesOf_setStatusCondition_absent conds v hf]
          have hv : v.type ∉ typesOf conds := (find_eq_none_iff_not_mem conds v.type).mp hf
          simp [List.nodup_append, h, hv]

theorem condList_ext : ∀ (X Y : List StatusCondition),
    typesOf X = typesOf Y → (typesOf X).Nodup →
    (∀ t, findStatusCondition X t = findStatusCondition Y t) → X = Y := by
  intro X
  induction X with
  | nil =>
      intro Y htypes _ _
      cases Y with
      | nil => rfl
      | cons y Y' => exact absurd htypes (by simp [typesOf])
  | cons x X' ih =>
      intro Y htypes hnodup hfind
      cases Y with
      | nil => exact absurd htypes (by simp [typesOf])
      | cons y Y' =>
          simp only [typesOf, List.map, List.cons.injEq] at htypes
          have hxy : x.type = y.type := htypes.1
          have htail_types : typesOf X' = typesOf Y' := htypes.2
          simp only [typesOf, List.map, List.nodup_cons] at hnodup
          have hxnotmem : x.type ∉ typesOf X' := hnodup.1
          have hnodup' : (typesOf X').Nodup := hnodup.2
          have hhead : x = y := by
            have h1 : findStatusCondition (x :: X') x.type = some x := by
              simp [findStatusCondition]
            have h2 : findStatusCondition (y :: Y') x.type = some y := by
              simp [findStatusCondition, hxy.symm]
            exact Option.some.inj (h1.symm.trans ((hfind x.type).trans h2))
          have hfind' : ∀ t, findStatusCondition X' t = findStatusCondition Y' t := by
            intro t
            by_cases ht : t = x.type
            · have e1 : findStatusCondition X' t = none :=
                (find_eq_none_iff_not_mem X' t).mpr (by rw [ht]; exact hxnotmem)
              have e2 : findStatusCondition Y' t = none :=
                (find_eq_none_iff_not_mem Y' t).mpr
                  (by rw [ht]; exact htail_types ▸ hxnotmem)
              rw [e1, e2]
            · have hxt : ¬(x.type = t) := fun hh => ht hh.symm
              have hyt : ¬(y.type = t) := fun hh => ht (hxy.trans hh).symm
              have l1 : findStatusCondition (x :: X') t = findStatusCondition X' t := by
                simp [findStatusCondition, hxt]
              have l2 : findStatusCondition (y :: Y') t = findStatusCondition Y' t := by
                simp [findStatusCondition, hyt]
              rw [← l1, ← l2, hfind t]
          rw [hhead, ih Y' htail_types hnodup' hfind']

theorem mergeConditions_append (cs a b : List StatusCondition) :
    mergeConditions cs (a ++ b) = mergeConditions (mergeConditions cs a) b :=
  List.foldl_append _ _ _ _

theorem mergeConditions_replay (cs us : List StatusCondition)
    (h : (typesOf cs).Nodup) :
    mergeConditions (mergeConditions cs us) us = mergeConditions cs us := by
  have hpresent : ∀ u ∈ us, findStatusCondition (mergeConditions cs us) u.type ≠ none :=
    fun u hu => find_mergeConditions_mem_ne_none cs us u hu
  have htypes : typesOf (mergeConditions (mergeConditions cs us) us)
      = typesOf (mergeConditions cs us) :=
    typesOf_mergeConditions_stable us (mergeConditions cs us) hpresent
  have hnodup : (typesOf (mergeConditions (mergeConditions cs us) us)).Nodup := by
    rw [htypes]
    exact nodup_typesOf_mergeConditions us cs h
  apply condList_ext _ _ htypes hnodup
  intro t
  rw [find_mergeConditions (mergeConditions cs us) us t, find_mergeConditions cs us t]
  exact condFold_replay _ _

theorem clusterOperatorStatus_fields_eq (a b : ClusterOperatorStatus)
    (h1 : a.conditions = b.conditions) (h2 : a.versions = b.versions)
    (h3 : a.relatedObjects = b.relatedObjects) : a = b := by
  cases a
  cases b
  simp_all

/-- C2: the sync computation is idempotent — applying `syncRecord` twice
with the same policy batch and the same overrides, with no external change
in between, yields the same record as applying it once (conditions,
versions and related objects all byte-identical), for every stored record
whose condition types are unique (the record invariant of the data model). -/
theorem syncRecord_idempotent (ns : String) (co : ClusterOperatorStatus)
    (conds overrides : List StatusCondition)
    (h : (typesOf co.conditions).Nodup) :
    syncRecord ns (syncRecord ns co conds overrides) conds overrides
      = syncRecord ns co conds overrides := by
  apply clusterOperatorStatus_fields_eq
  · rw [syncRecord_conditions, syncRecord_conditions]
    have e1 : mergeConditions (mergeConditions co.conditions conds) overrides
        = mergeConditions co.conditions (conds ++ overrides) :=
      (mergeConditions_append _ _ _).symm
    rw [e1, ← mergeConditions_append]
    exact mergeConditions_replay co.conditions (conds ++ overrides) h
  · rw [syncRecord_versions, syncRecord_versions]
  · rw [syncRecord_relatedObjects, syncRecord_relatedObjects]

/-- C2, witness: concrete idempotence of the Progressing sync on `co416`
(whose condition types are unique). -/
theorem syncRecord_idempotent_witness :
    (typesOf co416.conditions).Nodup
    ∧ syncRecord "ns" (syncRecord "ns" co416 (progressingConditions client416 7 co416) [])
          (progressingConditions client416 7 co416) []
        = syncRecord "ns" co416 (progressingConditions client416 7 co416) [] :=
  ⟨by decide,
    syncRecord_idempotent "ns" co416 (progressingConditions client416 7 co416) [] (by decide)⟩
